import Mathlib

/-!
Verification development for the `srcp-optimization` repository: a collection
of design tools for a two-stage split-ring compound planetary gearbox.

The Python sources are shallowly embedded here.  Floating-point arithmetic in
the sources is modelled by exact rational arithmetic (`ℚ`); real-valued
trigonometry (the FreeCAD placement matrices) is modelled over `ℝ`.  Integer
loops become `List.range'` enumerations, `continue` statements become list
filters, early `return` becomes a first-match recursion, and code that can
raise (`ZeroDivisionError`) returns `Option`.
-/

namespace Srcp

/-! ## `optimize_gear_ratio.py`: the tooth-count searches -/

/-- One candidate configuration as built by the search loops of
`optimize_gear_ratio.py` (the `best_config` / returned dictionaries;
the error fields are recomputed from `actual_ratio` where needed). -/
structure Cand where
  sun_teeth : ℤ
  p1_teeth : ℤ
  r1_teeth : ℤ
  p2_teeth : ℤ
  r2_teeth : ℤ
  actual_ratio : ℚ
  deriving DecidableEq, Repr

/-- The sequence of surviving candidates enumerated by the (identical) nested
loops of `find_nearest_gear_ratio` and `find_minimum_ring1_gear_ratio`
(`optimize_gear_ratio.py`), in iteration order:
`for r1_teeth in range(20, max_teeth)`,
`for p1_teeth in range(8, min(r1_teeth//2, 30))`, the `continue` filters on
`sun_teeth` and the 120°-spacing constraint,
`for r2_teeth in range(20, max_teeth)`, the `continue` filters on `p2_teeth`
and `abs(G) < 1e-10`, with
`I1 = r1/sun`, `I2 = (r1*p2)/(r2*p1)`, `G = (1-I2)/(1+I1)`,
`actual_ratio = 1/G`. -/
def searchSpace (max_teeth : ℕ) : List Cand :=
  (List.range' 20 (max_teeth - 20)).flatMap fun r1 =>
    (List.range' 8 (min (r1 / 2) 30 - 8)).flatMap fun p1 =>
      let sun : ℤ := (r1 : ℤ) - 2 * (p1 : ℤ)
      if sun < 8 then [] else
      if ((r1 : ℤ) + sun) % 3 ≠ 0 then [] else
      if sun ≤ 0 then [] else
      (List.range' 20 (max_teeth - 20)).filterMap fun r2 =>
        let p2 : ℤ := (r2 : ℤ) - sun - (p1 : ℤ)
        if p2 ≤ 0 then none else
        let I1 : ℚ := (r1 : ℚ) / (sun : ℚ)
        let I2 : ℚ := ((r1 : ℚ) * (p2 : ℚ)) / ((r2 : ℚ) * (p1 : ℚ))
        let G : ℚ := (1 - I2) / (1 + I1)
        if |G| < 1 / 10000000000 then none else
        some ⟨sun, (p1 : ℤ), (r1 : ℤ), p2, (r2 : ℤ), 1 / G⟩

/-- The absolute error `abs(actual_ratio - target_ratio)` of a candidate. -/
def errTo (target_ratio : ℚ) (c : Cand) : ℚ := |c.actual_ratio - target_ratio|

/-- The update step of the `best_error` / `best_config` accumulator of
`find_nearest_gear_ratio`: starting from `best_error = inf` (modelled by the
`none` accumulator), a candidate replaces the incumbent iff its error is
strictly smaller (`if error < best_error`). -/
def updateBest (target_ratio : ℚ) (best : Option Cand) (c : Cand) : Option Cand :=
  match best with
  | none => some c
  | some b => if errTo target_ratio c < errTo target_ratio b then some c else some b

/-- Function `find_nearest_gear_ratio(target_ratio, max_teeth)` from
`optimize_gear_ratio.py`: fold the strict-improvement update over the
candidates in iteration order, returning `best_config`. -/
def find_nearest_gear_ratio (target_ratio : ℚ) (max_teeth : ℕ) : Option Cand :=
  (searchSpace max_teeth).foldl (updateBest target_ratio) none

/-- The relative error percentage
`abs(actual_ratio - target_ratio) / target_ratio * 100` used by
`find_minimum_ring1_gear_ratio`. -/
def errPercent (target_ratio : ℚ) (c : Cand) : ℚ :=
  |c.actual_ratio - target_ratio| / target_ratio * 100

/-- The early-`return` of `find_minimum_ring1_gear_ratio`: the first candidate
(in iteration order) whose `error_percent` is within tolerance. -/
def findFirstWithin (target_ratio max_error_percent : ℚ) : List Cand → Option Cand
  | [] => none
  | c :: rest =>
    if errPercent target_ratio c ≤ max_error_percent then some c
    else findFirstWithin target_ratio max_error_percent rest

/-- Function `find_minimum_ring1_gear_ratio(target_ratio, max_error_percent, max_teeth)`
from `optimize_gear_ratio.py`. -/
def find_minimum_ring1_gear_ratio (target_ratio max_error_percent : ℚ)
    (max_teeth : ℕ) : Option Cand :=
  findFirstWithin target_ratio max_error_percent (searchSpace max_teeth)

/-! ### Characterization of the fold of `find_nearest_gear_ratio` -/

lemma foldl_updateBest_isSome (t : ℚ) :
    ∀ (l : List Cand) (b : Cand), ∃ r, l.foldl (updateBest t) (some b) = some r := by
  intro l
  induction l with
  | nil => intro b; exact ⟨b, rfl⟩
  | cons c rest ih =>
    intro b
    rw [List.foldl_cons]
    show ∃ r, List.foldl _ (updateBest t (some b) c) _ = _
    rw [updateBest]
    by_cases hc : errTo t c < errTo t b
    · rw [if_pos hc]; exact ih c
    · rw [if_neg hc]; exact ih b

lemma foldl_updateBest_char (t : ℚ) :
    ∀ (l : List Cand) (b r : Cand),
      l.foldl (updateBest t) (some b) = some r →
      (errTo t r ≤ errTo t b ∧ ∀ x ∈ l, errTo t r ≤ errTo t x) ∧
      (r = b ∨ ∃ l₁ l₂, l = l₁ ++ r :: l₂ ∧ errTo t r < errTo t b ∧
        ∀ x ∈ l₁, errTo t r < errTo t x) := by
  intro l
  induction l with
  | nil =>
    intro b r h
    simp only [List.foldl_nil, Option.some.injEq] at h
    subst h
    exact ⟨⟨le_refl _, by simp⟩, Or.inl rfl⟩
  | cons c rest ih =>
    intro b r h
    rw [List.foldl_cons] at h
    show _ ∧ (_ ∨ ∃ l₁ l₂, c :: rest = l₁ ++ r :: l₂ ∧ _ ∧ _)
    rw [updateBest] at h
    by_cases hc : errTo t c < errTo t b
    · rw [if_pos hc] at h
      obtain ⟨⟨hrc, hrest⟩, hsplit⟩ := ih c r h
      refine ⟨⟨le_of_lt (lt_of_le_of_lt hrc hc), ?_⟩, ?_⟩
      · intro x hx
        rcases List.mem_cons.mp hx with hx | hx
        · exact hx ▸ hrc
        · exact hrest x hx
      · rcases hsplit with rfl | ⟨l₁, l₂, hsp, hlt, hpre⟩
        · exact Or.inr ⟨[], rest, rfl, hc, by simp⟩
        · refine Or.inr ⟨c :: l₁, l₂, by simp [hsp],
            lt_of_le_of_lt hrc hc, ?_⟩
          intro x hx
          rcases List.mem_cons.mp hx with hx | hx
          · exact hx ▸ hlt
          · exact hpre x hx
    · rw [if_neg hc] at h
      push_neg at hc
      obtain ⟨⟨hrb, hrest⟩, hsplit⟩ := ih b r h
      refine ⟨⟨hrb, ?_⟩, ?_⟩
      · intro x hx
        rcases List.mem_cons.mp hx with rfl | hx
        · exact le_trans hrb hc
        · exact hrest x hx
      · rcases hsplit with rfl | ⟨l₁, l₂, hsp, hlt, hpre⟩
        · exact Or.inl rfl
        · refine Or.inr ⟨c :: l₁, l₂, by simp [hsp], hlt, ?_⟩
          intro x hx
          rcases List.mem_cons.mp hx with rfl | hx
          · exact lt_of_lt_of_le hlt hc
          · exact hpre x hx

/-- C1. `find_nearest_gear_ratio` returns `None` exactly when the search space
is empty, and any returned candidate attains the globally minimal error
`|1/G − target|` over the whole search space; among the candidates attaining
that minimum, the returned one is the first in iteration order (every earlier
candidate has strictly larger error). -/
theorem find_nearest_gear_ratio_global_min (t : ℚ) (m : ℕ) :
    (find_nearest_gear_ratio t m = none ↔ searchSpace m = []) ∧
    ∀ c, find_nearest_gear_ratio t m = some c →
      c ∈ searchSpace m ∧
      (∀ x ∈ searchSpace m, errTo t c ≤ errTo t x) ∧
      ∃ l₁ l₂, searchSpace m = l₁ ++ c :: l₂ ∧ ∀ x ∈ l₁, errTo t c < errTo t x := by
  constructor
  · constructor
    · intro h
      cases hs : searchSpace m with
      | nil => rfl
      | cons c rest =>
        rw [find_nearest_gear_ratio, hs, List.foldl_cons] at h
        obtain ⟨r, hr⟩ := foldl_updateBest_isSome t rest c
        rw [show updateBest t none c = some c from rfl, hr] at h
        exact absurd h (by simp)
    · intro h
      rw [find_nearest_gear_ratio, h]
      rfl
  · intro c h
    cases hs : searchSpace m with
    | nil =>
      rw [find_nearest_gear_ratio, hs] at h
      exact absurd h (by simp)
    | cons c₀ rest =>
      rw [find_nearest_gear_ratio, hs, List.foldl_cons,
        show updateBest t none c₀ = some c₀ from rfl] at h
      obtain ⟨⟨hcb, hrest⟩, hsplit⟩ := foldl_updateBest_char t rest c₀ c h
      have hmin : ∀ x ∈ c₀ :: rest, errTo t c ≤ errTo t x := by
        intro x hx
        rcases List.mem_cons.mp hx with rfl | hx
        · exact hcb
        · exact hrest x hx
      rcases hsplit with rfl | ⟨l₁, l₂, hsp, hlt, hpre⟩
      · exact ⟨List.mem_cons_self _ _, hmin, [], rest, rfl, by simp⟩
      · refine ⟨?_, hmin, c₀ :: l₁, l₂, by simp [hsp], ?_⟩
        · rw [hsp]
          exact List.mem_cons_of_mem _ (by simp)
        · intro x hx
          rcases List.mem_cons.mp hx with rfl | hx
          · exact hlt
          · exact hpre x hx

/-- Witness for C1 at target ratio 5 and `max_teeth = 27`: the search returns
the concrete candidate `(sun=10, p1=8, r1=26, p2=2, r2=20)` with ratio `16/3`,
and the theorem's conclusions hold for it. -/
theorem find_nearest_gear_ratio_global_min_witness :
    (⟨10, 8, 26, 2, 20, 16/3⟩ : Cand) ∈ searchSpace 27 ∧
    (∀ x ∈ searchSpace 27, errTo 5 ⟨10, 8, 26, 2, 20, 16/3⟩ ≤ errTo 5 x) ∧
    ∃ l₁ l₂, searchSpace 27 = l₁ ++ (⟨10, 8, 26, 2, 20, 16/3⟩ : Cand) :: l₂ ∧
      ∀ x ∈ l₁, errTo 5 ⟨10, 8, 26, 2, 20, 16/3⟩ < errTo 5 x :=
  (find_nearest_gear_ratio_global_min 5 27).2 ⟨10, 8, 26, 2, 20, 16/3⟩ (by with_unfolding_all decide)

/-! ### Characterization of `find_minimum_ring1_gear_ratio` (C2) -/

lemma findFirstWithin_eq_none_iff (t tol : ℚ) :
    ∀ l : List Cand, findFirstWithin t tol l = none ↔
      ∀ x ∈ l, ¬(errPercent t x ≤ tol) := by
  intro l
  induction l with
  | nil => simp [findFirstWithin]
  | cons c rest ih =>
    rw [findFirstWithin]
    by_cases hc : errPercent t c ≤ tol
    · rw [if_pos hc]
      simp only [List.mem_cons]
      constructor
      · intro h; exact absurd h (by simp)
      · intro h; exact absurd hc (h c (Or.inl rfl))
    · rw [if_neg hc, ih]
      constructor
      · intro h x hx
        rcases List.mem_cons.mp hx with rfl | hx
        · exact hc
        · exact h x hx
      · intro h x hx
        exact h x (List.mem_cons_of_mem _ hx)

lemma findFirstWithin_eq_some (t tol : ℚ) :
    ∀ (l : List Cand) (c : Cand), findFirstWithin t tol l = some c →
      errPercent t c ≤ tol ∧
      ∃ l₁ l₂, l = l₁ ++ c :: l₂ ∧ ∀ x ∈ l₁, ¬(errPercent t x ≤ tol) := by
  intro l
  induction l with
  | nil => intro c h; exact absurd h (by simp [findFirstWithin])
  | cons c₀ rest ih =>
    intro c h
    rw [findFirstWithin] at h
    by_cases hc : errPercent t c₀ ≤ tol
    · rw [if_pos hc] at h
      cases h
      exact ⟨hc, [], rest, rfl, by simp⟩
    · rw [if_neg hc] at h
      obtain ⟨hsat, l₁, l₂, hsp, hpre⟩ := ih c h
      refine ⟨hsat, c₀ :: l₁, l₂, by simp [hsp], ?_⟩
      intro x hx
      rcases List.mem_cons.mp hx with rfl | hx
      · exact hc
      · exact hpre x hx

/-- C2 (counterexample to the claim as stated). With target ratio 12,
tolerance 0.01 % and `max_teeth = 34`, `find_minimum_ring1_gear_ratio`
returns the candidate `(r1=33, p1=9, r2=30)` (ratio exactly 12), although
the candidate `(r1=33, p1=12, r2=27)` (ratio also exactly 12) meets the
tolerance with the same `ring_teeth₁` and a strictly smaller `ring_teeth₂`:
the result is therefore not the satisfying candidate with smallest
`ring_teeth₁` and then smallest `ring_teeth₂`.  The instance is robust to
the source's float64 arithmetic: these two candidates are the only ones
whose relative error is below 0.5 % (every other candidate is off by at
least 1 %), while both exact-ratio candidates evaluate in float64 to a
relative error of about 1e-14 %, far below the 0.01 % tolerance. -/
theorem find_minimum_ring1_not_min_r2_counterexample :
    find_minimum_ring1_gear_ratio 12 (1/100) 34 =
      some ⟨15, 9, 33, 6, 30, 12⟩ ∧
    (⟨9, 12, 33, 6, 27, 12⟩ : Cand) ∈ searchSpace 34 ∧
    errPercent 12 ⟨9, 12, 33, 6, 27, 12⟩ ≤ 1/100 ∧
    (⟨9, 12, 33, 6, 27, 12⟩ : Cand).r1_teeth = (⟨15, 9, 33, 6, 30, 12⟩ : Cand).r1_teeth ∧
    (⟨9, 12, 33, 6, 27, 12⟩ : Cand).r2_teeth < (⟨15, 9, 33, 6, 30, 12⟩ : Cand).r2_teeth ∧
    ((searchSpace 34).filter fun c => decide (errPercent 12 c ≤ 1/2)) =
      [⟨15, 9, 33, 6, 30, 12⟩, ⟨9, 12, 33, 6, 27, 12⟩] := by
  refine ⟨by with_unfolding_all decide, by with_unfolding_all decide,
    by with_unfolding_all decide, by decide, by decide, by with_unfolding_all decide⟩

/-- C2 (amended). `find_minimum_ring1_gear_ratio` returns the first candidate
in iteration order (ascending `ring_teeth₁`, then ascending `planet_teeth₁`,
then ascending `ring_teeth₂`) whose relative error percentage is within the
tolerance — every candidate earlier in iteration order fails the tolerance —
and returns `None` (an absence result, never an exception) exactly when no
candidate within the bound meets the tolerance. -/
theorem find_minimum_ring1_first_in_iteration_order (t tol : ℚ) (m : ℕ) :
    (find_minimum_ring1_gear_ratio t tol m = none ↔
      ∀ x ∈ searchSpace m, ¬(errPercent t x ≤ tol)) ∧
    ∀ c, find_minimum_ring1_gear_ratio t tol m = some c →
      errPercent t c ≤ tol ∧
      ∃ l₁ l₂, searchSpace m = l₁ ++ c :: l₂ ∧ ∀ x ∈ l₁, ¬(errPercent t x ≤ tol) :=
  ⟨findFirstWithin_eq_none_iff t tol (searchSpace m),
   fun c h => findFirstWithin_eq_some t tol (searchSpace m) c h⟩

/-- Witness for the amended C2 at target 12, tolerance 0.01 %,
`max_teeth = 34`. -/
theorem find_minimum_ring1_first_in_iteration_order_witness :
    errPercent 12 ⟨15, 9, 33, 6, 30, 12⟩ ≤ 1/100 ∧
    ∃ l₁ l₂, searchSpace 34 = l₁ ++ (⟨15, 9, 33, 6, 30, 12⟩ : Cand) :: l₂ ∧
      ∀ x ∈ l₁, ¬(errPercent 12 x ≤ 1/100) :=
  (find_minimum_ring1_first_in_iteration_order 12 (1/100) 34).2
    ⟨15, 9, 33, 6, 30, 12⟩ (by with_unfolding_all decide)

/-! ### Invariants of every candidate in the search space (C9) -/

lemma mem_searchSpace_invariants (m : ℕ) (c : Cand) (h : c ∈ searchSpace m) :
    c.sun_teeth = c.r1_teeth - 2 * c.p1_teeth ∧ 8 ≤ c.sun_teeth ∧ 0 < c.sun_teeth ∧
    c.p2_teeth = c.r2_teeth - c.sun_teeth - c.p1_teeth ∧ 0 < c.p2_teeth ∧
    (c.r1_teeth + c.sun_teeth) % 3 = 0 := by
  simp only [searchSpace, List.mem_flatMap, List.mem_range'] at h
  obtain ⟨r1, hr1, p1, hp1, hin⟩ := h
  split_ifs at hin with h1 h2 h3
  · exact absurd hin (List.not_mem_nil c)
  · exact absurd hin (List.not_mem_nil c)
  · exact absurd hin (List.not_mem_nil c)
  · rw [List.mem_filterMap] at hin
    obtain ⟨r2, hr2, heq⟩ := hin
    split_ifs at heq with h4 h5
    all_goals first
      | exact Option.noConfusion heq
      | · rw [Option.some.injEq] at heq
          subst heq
          push_neg at h1 h2 h4
          exact ⟨rfl, h1, not_le.mp h3, rfl, h4, h2⟩

lemma find_nearest_gear_ratio_mem (t : ℚ) (m : ℕ) (c : Cand)
    (h : find_nearest_gear_ratio t m = some c) : c ∈ searchSpace m := by
  rw [find_nearest_gear_ratio] at h
  cases hs : searchSpace m with
  | nil => rw [hs] at h; exact absurd h (by simp)
  | cons c₀ rest =>
    rw [hs, List.foldl_cons, show updateBest t none c₀ = some c₀ from rfl] at h
    obtain ⟨_, hsplit⟩ := foldl_updateBest_char t rest c₀ c h
    rcases hsplit with rfl | ⟨l₁, l₂, hsp, _, _⟩
    · exact List.mem_cons_self _ _
    · rw [hsp]
      exact List.mem_cons_of_mem _ (by simp)

lemma find_minimum_ring1_gear_ratio_mem (t tol : ℚ) (m : ℕ) (c : Cand)
    (h : find_minimum_ring1_gear_ratio t tol m = some c) : c ∈ searchSpace m := by
  obtain ⟨_, l₁, l₂, hsp, _⟩ := findFirstWithin_eq_some t tol (searchSpace m) c h
  rw [hsp]
  exact List.mem_append_right _ (List.mem_cons_self _ _)

/-- C9. Every configuration returned by `find_nearest_gear_ratio` or by
`find_minimum_ring1_gear_ratio` satisfies
`sun_teeth = ring_teeth₁ − 2·planet_teeth₁ ≥ 8` (hence `sun_teeth > 0`),
`planet_teeth₂ = ring_teeth₂ − sun_teeth − planet_teeth₁ > 0`, and
`(ring_teeth₁ + sun_teeth) mod 3 = 0` (even spacing for 3 planets). -/
theorem search_results_satisfy_invariants (t tol : ℚ) (m : ℕ) (c : Cand)
    (h : find_nearest_gear_ratio t m = some c ∨
         find_minimum_ring1_gear_ratio t tol m = some c) :
    c.sun_teeth = c.r1_teeth - 2 * c.p1_teeth ∧ 8 ≤ c.sun_teeth ∧ 0 < c.sun_teeth ∧
    c.p2_teeth = c.r2_teeth - c.sun_teeth - c.p1_teeth ∧ 0 < c.p2_teeth ∧
    (c.r1_teeth + c.sun_teeth) % 3 = 0 := by
  rcases h with h | h
  · exact mem_searchSpace_invariants m c (find_nearest_gear_ratio_mem t m c h)
  · exact mem_searchSpace_invariants m c (find_minimum_ring1_gear_ratio_mem t tol m c h)

/-- Witness for C9 at the result of `find_nearest_gear_ratio 5 27`. -/
theorem search_results_satisfy_invariants_witness :
    (⟨10, 8, 26, 2, 20, 16/3⟩ : Cand).sun_teeth =
        (⟨10, 8, 26, 2, 20, 16/3⟩ : Cand).r1_teeth - 2 * (⟨10, 8, 26, 2, 20, 16/3⟩ : Cand).p1_teeth ∧
    8 ≤ (⟨10, 8, 26, 2, 20, 16/3⟩ : Cand).sun_teeth ∧
    0 < (⟨10, 8, 26, 2, 20, 16/3⟩ : Cand).sun_teeth ∧
    (⟨10, 8, 26, 2, 20, 16/3⟩ : Cand).p2_teeth =
        (⟨10, 8, 26, 2, 20, 16/3⟩ : Cand).r2_teeth - (⟨10, 8, 26, 2, 20, 16/3⟩ : Cand).sun_teeth -
          (⟨10, 8, 26, 2, 20, 16/3⟩ : Cand).p1_teeth ∧
    0 < (⟨10, 8, 26, 2, 20, 16/3⟩ : Cand).p2_teeth ∧
    ((⟨10, 8, 26, 2, 20, 16/3⟩ : Cand).r1_teeth + (⟨10, 8, 26, 2, 20, 16/3⟩ : Cand).sun_teeth) % 3 = 0 :=
  search_results_satisfy_invariants 5 0 27 ⟨10, 8, 26, 2, 20, 16/3⟩
    (Or.inl (by with_unfolding_all decide))

/-! ## `solve_yaml_params.py`: the carrier-constraint solver

A stack configuration read from YAML may be missing any of the three
parameters `module`, `ring_teeth`, `planet_teeth`; missing keys are modelled
by `Option` fields (all numeric values as `ℚ`).  Python's `ZeroDivisionError`
and `KeyError` are modelled by an `Option` result. -/

/-- A stack section of the input YAML (`stack_1_params` / `stack_2_params`)
with possibly missing parameters. -/
structure StackIn where
  module : Option ℚ
  ring_teeth : Option ℚ
  planet_teeth : Option ℚ
  deriving DecidableEq, Repr

/-- A completed stack: all three parameters present. -/
structure StackVals where
  module : ℚ
  ring_teeth : ℚ
  planet_teeth : ℚ
  deriving DecidableEq, Repr

/-- The three parameter names checked by `detect_missing_params`. -/
inductive Param where
  | module
  | ring_teeth
  | planet_teeth
  deriving DecidableEq, Repr

/-- Function `detect_missing_params(stack_params)` from `solve_yaml_params.py`: the
missing parameters among `['module', 'ring_teeth', 'planet_teeth']`, in that
order. -/
def detect_missing_params (s : StackIn) : List Param :=
  (if s.module.isNone then [Param.module] else []) ++
  (if s.ring_teeth.isNone then [Param.ring_teeth] else []) ++
  (if s.planet_teeth.isNone then [Param.planet_teeth] else [])

/-- Function `get_carrier_radius(np, nr, module)` from `GearGeneratorFreecad.py`
(lines 106–108; `solve_yaml_params.py` imports a function of this name):
`ns = nr - 2*np; return (np*module/2) + (ns*module/2)`. -/
def get_carrier_radius (np nr module : ℚ) : ℚ :=
  let ns := nr - 2 * np
  np * module / 2 + ns * module / 2

/-- Modelled from the spec: `check_stage_validity` is imported by
`solve_yaml_params.py` from `optimize_gear_ratio`, but its definition is not
present under `src/`; §4.5 of the spec: given N, ring_teeth, sun_teeth,
return whether `(ring_teeth + sun_teeth) mod N == 0`.  (Its result is only
printed by `solve_and_complete_config`; it affects no control flow.) -/
def check_stage_validity (num_planets ring_teeth sun_teeth : ℤ) : Bool :=
  (ring_teeth + sun_teeth) % num_planets == 0

/-- Function `solve_missing_module(stack1, stack2, missing_in_stack)` from
`solve_yaml_params.py`.  `missing_in_stack = 1`:
`m1 = m2 * (nr2 - np2) / (nr1 - np1)`; otherwise
`m2 = m1 * (nr1 - np1) / (nr2 - np2)`.  A zero divisor raises
`ZeroDivisionError` in Python, modelled by `none`; a missing key for one of
the five read parameters raises `KeyError`, also modelled by `none`. -/
def solve_missing_module (stack1 stack2 : StackIn) (missing_in_stack : ℕ) : Option ℚ :=
  if missing_in_stack = 1 then
    match stack2.module, stack1.ring_teeth, stack1.planet_teeth,
        stack2.ring_teeth, stack2.planet_teeth with
    | some m2, some nr1, some np1, some nr2, some np2 =>
      if nr1 - np1 = 0 then none else some (m2 * (nr2 - np2) / (nr1 - np1))
    | _, _, _, _, _ => none
  else
    match stack1.module, stack1.ring_teeth, stack1.planet_teeth,
        stack2.ring_teeth, stack2.planet_teeth with
    | some m1, some nr1, some np1, some nr2, some np2 =>
      if nr2 - np2 = 0 then none else some (m1 * (nr1 - np1) / (nr2 - np2))
    | _, _, _, _, _ => none

/-- Python's built-in `round` (banker's rounding: round half to even),
applied by the tooth-count solvers to their real-valued solutions. -/
def pyRound (q : ℚ) : ℤ :=
  let f := ⌊q⌋
  let r := q - (f : ℚ)
  if r < 1/2 then f
  else if 1/2 < r then f + 1
  else if Even f then f else f + 1

/-- Function `solve_missing_ring_teeth(stack1, stack2, missing_in_stack)` from
`solve_yaml_params.py`.  `missing_in_stack = 1`:
`nr1 = np1 + m2 * (nr2 - np2) / m1`, returned as `round(nr1)`; otherwise
`nr2 = np2 + m1 * (nr1 - np1) / m2`, returned as `round(nr2)`. -/
def solve_missing_ring_teeth (stack1 stack2 : StackIn) (missing_in_stack : ℕ) : Option ℤ :=
  if missing_in_stack = 1 then
    match stack1.module, stack1.planet_teeth, stack2.module,
        stack2.ring_teeth, stack2.planet_teeth with
    | some m1, some np1, some m2, some nr2, some np2 =>
      if m1 = 0 then none else some (pyRound (np1 + m2 * (nr2 - np2) / m1))
    | _, _, _, _, _ => none
  else
    match stack1.module, stack1.ring_teeth, stack1.planet_teeth,
        stack2.module, stack2.planet_teeth with
    | some m1, some nr1, some np1, some m2, some np2 =>
      if m2 = 0 then none else some (pyRound (np2 + m1 * (nr1 - np1) / m2))
    | _, _, _, _, _ => none

/-- Function `solve_missing_planet_teeth(stack1, stack2, missing_in_stack)` from
`solve_yaml_params.py`.  `missing_in_stack = 1`:
`np1 = nr1 - m2 * (nr2 - np2) / m1`, returned as `round(np1)`; otherwise
`np2 = nr2 - m1 * (nr1 - np1) / m2`, returned as `round(np2)`. -/
def solve_missing_planet_teeth (stack1 stack2 : StackIn) (missing_in_stack : ℕ) : Option ℤ :=
  if missing_in_stack = 1 then
    match stack1.module, stack1.ring_teeth, stack2.module,
        stack2.ring_teeth, stack2.planet_teeth with
    | some m1, some nr1, some m2, some nr2, some np2 =>
      if m1 = 0 then none else some (pyRound (nr1 - m2 * (nr2 - np2) / m1))
    | _, _, _, _, _ => none
  else
    match stack1.module, stack1.ring_teeth, stack1.planet_teeth,
        stack2.module, stack2.ring_teeth with
    | some m1, some nr1, some np1, some m2, some nr2 =>
      if m2 = 0 then none else some (pyRound (nr2 - m1 * (nr1 - np1) / m2))
    | _, _, _, _, _ => none

/-- C3. Any module value actually returned by `solve_missing_module`
satisfies the carrier-matching equation
`(ring₁ − planet₁)·module₁ = (ring₂ − planet₂)·module₂` exactly in rational
arithmetic (stated under the claim's hypothesis that ring and planet teeth
differ on the known stack's side), and the concrete instance
`module₁ = 0.5, ring₁ = 54, planet₁ = 21, ring₂ = 53, planet₂ = 20` solved
for `module₂` yields exactly `0.5`. -/
theorem solve_missing_module_exact (m1 m2 nr1 np1 nr2 np2 v : ℚ) :
    (nr1 ≠ np1 →
      solve_missing_module ⟨some m1, some nr1, some np1⟩ ⟨none, some nr2, some np2⟩ 2 = some v →
      (nr1 - np1) * m1 = (nr2 - np2) * v) ∧
    (nr2 ≠ np2 →
      solve_missing_module ⟨none, some nr1, some np1⟩ ⟨some m2, some nr2, some np2⟩ 1 = some v →
      (nr1 - np1) * v = (nr2 - np2) * m2) ∧
    solve_missing_module ⟨some (1/2), some 54, some 21⟩ ⟨none, some 53, some 20⟩ 2 =
      some (1/2) := by
  refine ⟨?_, ?_, by with_unfolding_all decide⟩
  · intro _ h
    rw [solve_missing_module] at h
    simp only [if_neg (by norm_num : ¬(2 = 1))] at h
    split_ifs at h with hz
    all_goals first
      | exact Option.noConfusion h
      | · rw [Option.some.injEq] at h
          subst h
          field_simp
          ring
  · intro _ h
    rw [solve_missing_module] at h
    simp only [if_pos rfl] at h
    split_ifs at h with hz
    all_goals first
      | exact Option.noConfusion h
      | · rw [Option.some.injEq] at h
          subst h
          field_simp
          ring

/-- Witness for C3 at the concrete instance
`module₁ = 1/2, ring₁ = 54, planet₁ = 21, ring₂ = 53, planet₂ = 20`. -/
theorem solve_missing_module_exact_witness :
    ((54 : ℚ) - 21) * (1/2) = ((53 : ℚ) - 20) * (1/2) :=
  (solve_missing_module_exact (1/2) 0 54 21 53 20 (1/2)).1
    (by norm_num) (by with_unfolding_all decide)

lemma pyRound_nearest (q : ℚ) (k : ℤ) : |q - (pyRound q : ℚ)| ≤ |q - (k : ℚ)| := by
  have hf1 : ((⌊q⌋ : ℤ) : ℚ) ≤ q := Int.floor_le q
  have hf2 : q < ((⌊q⌋ : ℤ) : ℚ) + 1 := Int.lt_floor_add_one q
  have A := le_abs_self (q - (k : ℚ))
  have B := neg_abs_le (q - (k : ℚ))
  have hk : ((k : ℚ) ≤ ((⌊q⌋ : ℤ) : ℚ)) ∨ (((⌊q⌋ : ℤ) : ℚ) + 1 ≤ (k : ℚ)) := by
    rcases le_or_lt k ⌊q⌋ with h | h
    · exact Or.inl (by exact_mod_cast h)
    · exact Or.inr (by exact_mod_cast h)
  simp only [pyRound]
  rcases hk with hk | hk <;> split_ifs with h1 h2 h3 <;> push_cast <;>
    first
      | (rw [abs_of_nonneg (by linarith)]; linarith)
      | (rw [abs_of_nonpos (by linarith)]; linarith)

/-- C8. Whenever the module divided by is nonzero, `solve_missing_ring_teeth`
and `solve_missing_planet_teeth` (both directions of each) return precisely
the rounding of the exact rational solution `x` of the carrier-matching
equation for the missing tooth count, and that rounding is a nearest integer
to `x` (no integer is strictly closer). -/
theorem solve_missing_teeth_round_nearest (m1 m2 nr1 np1 nr2 np2 : ℚ) :
    (m1 ≠ 0 → ∃ x : ℚ, (x - np1) * m1 = (nr2 - np2) * m2 ∧
      solve_missing_ring_teeth ⟨some m1, none, some np1⟩ ⟨some m2, some nr2, some np2⟩ 1 =
        some (pyRound x) ∧ ∀ k : ℤ, |x - (pyRound x : ℚ)| ≤ |x - (k : ℚ)|) ∧
    (m2 ≠ 0 → ∃ x : ℚ, (nr1 - np1) * m1 = (x - np2) * m2 ∧
      solve_missing_ring_teeth ⟨some m1, some nr1, some np1⟩ ⟨some m2, none, some np2⟩ 2 =
        some (pyRound x) ∧ ∀ k : ℤ, |x - (pyRound x : ℚ)| ≤ |x - (k : ℚ)|) ∧
    (m1 ≠ 0 → ∃ x : ℚ, (nr1 - x) * m1 = (nr2 - np2) * m2 ∧
      solve_missing_planet_teeth ⟨some m1, some nr1, none⟩ ⟨some m2, some nr2, some np2⟩ 1 =
        some (pyRound x) ∧ ∀ k : ℤ, |x - (pyRound x : ℚ)| ≤ |x - (k : ℚ)|) ∧
    (m2 ≠ 0 → ∃ x : ℚ, (nr1 - np1) * m1 = (nr2 - x) * m2 ∧
      solve_missing_planet_teeth ⟨some m1, some nr1, some np1⟩ ⟨some m2, some nr2, none⟩ 2 =
        some (pyRound x) ∧ ∀ k : ℤ, |x - (pyRound x : ℚ)| ≤ |x - (k : ℚ)|) := by
  refine ⟨fun hm => ⟨np1 + m2 * (nr2 - np2) / m1, ?_, ?_, fun k => pyRound_nearest _ k⟩,
          fun hm => ⟨np2 + m1 * (nr1 - np1) / m2, ?_, ?_, fun k => pyRound_nearest _ k⟩,
          fun hm => ⟨nr1 - m2 * (nr2 - np2) / m1, ?_, ?_, fun k => pyRound_nearest _ k⟩,
          fun hm => ⟨nr2 - m1 * (nr1 - np1) / m2, ?_, ?_, fun k => pyRound_nearest _ k⟩⟩
  · field_simp
    ring
  · rw [solve_missing_ring_teeth, if_pos rfl]
    exact if_neg hm
  · field_simp
    ring
  · rw [solve_missing_ring_teeth, if_neg (by norm_num : ¬(2 = 1))]
    exact if_neg hm
  · field_simp
    ring
  · rw [solve_missing_planet_teeth, if_pos rfl]
    exact if_neg hm
  · field_simp
    ring
  · rw [solve_missing_planet_teeth, if_neg (by norm_num : ¬(2 = 1))]
    exact if_neg hm

/-- Witness for C8: solving for `ring_teeth₁` with `module₁ = 1/2`,
`planet₁ = 21`, `module₂ = 1/2`, `ring₂ = 53`, `planet₂ = 20`. -/
theorem solve_missing_teeth_round_nearest_witness :
    ∃ x : ℚ, (x - 21) * (1/2) = ((53 : ℚ) - 20) * (1/2) ∧
      solve_missing_ring_teeth ⟨some (1/2), none, some 21⟩ ⟨some (1/2), some 53, some 20⟩ 1 =
        some (pyRound x) ∧ ∀ k : ℤ, |x - (pyRound x : ℚ)| ≤ |x - (k : ℚ)| :=
  (solve_missing_teeth_round_nearest (1/2) (1/2) 0 21 53 20).1 (by norm_num)

/-! ### `solve_and_complete_config` and `main` (C5, C6)

Observable effects of a run are recorded in a result structure:
`diag` (an `ERROR:` diagnostic was printed), `warned` (the carrier-mismatch
`WARNING` was printed), `wrote` (the output YAML file was written), `success`
(the boolean return value), and `completed` (the two completed stacks that
were verified and written, when the run reached that point). -/

structure RunResult where
  diag : Bool
  warned : Bool
  wrote : Bool
  success : Bool
  completed : Option (StackVals × StackVals)
  deriving DecidableEq, Repr

/-- The tail of `solve_and_complete_config` (lines 216–253): compute both
carrier radii, print the mismatch warning when `abs(cr1 - cr2) > 1e-9`,
print stage validity, write the output YAML, and return `True`.  Reading a
still-missing key here would raise an uncaught `KeyError` (no write,
modelled as a failed run); this is unreachable from the actual call sites. -/
def finishConfig (s1 s2 : StackIn) : RunResult :=
  match s1.planet_teeth, s1.ring_teeth, s1.module,
      s2.planet_teeth, s2.ring_teeth, s2.module with
  | some np1, some nr1, some m1, some np2, some nr2, some m2 =>
    let cr1 := get_carrier_radius np1 nr1 m1
    let cr2 := get_carrier_radius np2 nr2 m2
    let warned := decide (|cr1 - cr2| > 1 / 1000000000)
    ⟨false, warned, true, true, some (⟨m1, nr1, np1⟩, ⟨m2, nr2, np2⟩)⟩
  | _, _, _, _, _, _ => ⟨true, false, false, false, none⟩

/-- Store a solved parameter value back into a stack
(`stack1[param] = solved_value` / `stack2[param] = solved_value`). -/
def setParam (s : StackIn) (p : Param) (v : ℚ) : StackIn :=
  match p with
  | Param.module => { s with module := some v }
  | Param.ring_teeth => { s with ring_teeth := some v }
  | Param.planet_teeth => { s with planet_teeth := some v }

/-- Selection of the single missing parameter and its stack number
(`if missing_stack1: param, 1 else: param, 2`; the double-empty case is
unreachable under `total_missing = 1`). -/
def chooseMissing (missing_stack1 missing_stack2 : List Param) : Param × ℕ :=
  match missing_stack1 with
  | p :: _ => (p, 1)
  | [] =>
    match missing_stack2 with
    | p :: _ => (p, 2)
    | [] => (Param.module, 0)

/-- Dispatch on the parameter name
(`if param == 'module': ... elif 'ring_teeth': ... elif 'planet_teeth': ...`),
tooth counts being stored as (integer-valued) numbers. -/
def solveFor (s1 s2 : StackIn) (pn : Param × ℕ) : Option ℚ :=
  match pn.1 with
  | Param.module => solve_missing_module s1 s2 pn.2
  | Param.ring_teeth => (solve_missing_ring_teeth s1 s2 pn.2).map (fun z => (z : ℚ))
  | Param.planet_teeth => (solve_missing_planet_teeth s1 s2 pn.2).map (fun z => (z : ℚ))

/-- Function `solve_and_complete_config(input_yaml, output_yaml)` from
`solve_yaml_params.py`, after YAML parsing: detect missing parameters; if
none are missing, verify and write the configuration unchanged; if more than
one is missing, print the `ERROR: Too many missing parameters` diagnostic and
return `False` without writing; otherwise solve for the single missing
parameter (stack 1 first), the `except` branch turning a solver exception
into a printed `ERROR` and a `False` return, then verify and write. -/
def solve_and_complete_config (s1 s2 : StackIn) : RunResult :=
  let missing_stack1 := detect_missing_params s1
  let missing_stack2 := detect_missing_params s2
  let total_missing := missing_stack1.length + missing_stack2.length
  if total_missing = 0 then
    finishConfig s1 s2
  else if total_missing > 1 then
    ⟨true, false, false, false, none⟩
  else
    let pn := chooseMissing missing_stack1 missing_stack2
    match solveFor s1 s2 pn with
    | none => ⟨true, false, false, false, none⟩
    | some v =>
      let s1' := if pn.2 = 1 then setParam s1 pn.1 v else s1
      let s2' := if pn.2 = 2 then setParam s2 pn.1 v else s2
      finishConfig s1' s2'

/-- Function `main()` from `solve_yaml_params.py`, as a function of whether the input
file exists and of its parsed stacks: missing file prints an error and
returns 1; otherwise the exit code is `0 if success else 1`. -/
def main_exit_code (input_exists : Bool) (s1 s2 : StackIn) : ℤ :=
  if !input_exists then 1
  else if (solve_and_complete_config s1 s2).success then 0 else 1

lemma finishConfig_completed (s1 s2 : StackIn) (c1 c2 : StackVals)
    (h : (finishConfig s1 s2).completed = some (c1, c2)) :
    finishConfig s1 s2 =
      ⟨false,
       decide (|get_carrier_radius c1.planet_teeth c1.ring_teeth c1.module -
          get_carrier_radius c2.planet_teeth c2.ring_teeth c2.module| > 1 / 1000000000),
       true, true, some (c1, c2)⟩ := by
  rcases s1 with ⟨m1, nr1, np1⟩
  rcases s2 with ⟨m2, nr2, np2⟩
  rcases m1 with _ | m1 <;> rcases nr1 with _ | nr1 <;> rcases np1 with _ | np1 <;>
    rcases m2 with _ | m2 <;> rcases nr2 with _ | nr2 <;> rcases np2 with _ | np2 <;>
    dsimp only [finishConfig] at h <;>
    try exact Option.noConfusion h
  obtain ⟨h1, h2⟩ := Prod.ext_iff.mp (Option.some.inj h)
  subst h1
  subst h2
  rfl

/-- C5. Whenever `solve_and_complete_config` reaches a completed
configuration whose two carrier radii differ by more than `1e-9`, it prints
the carrier-mismatch warning but still writes the output YAML file and
returns success (`True`): the carrier check never aborts the run or
suppresses the output file. -/
theorem solve_and_complete_config_mismatch_nonfatal (s1 s2 : StackIn) (c1 c2 : StackVals)
    (hc : (solve_and_complete_config s1 s2).completed = some (c1, c2))
    (hmis : |get_carrier_radius c1.planet_teeth c1.ring_teeth c1.module -
        get_carrier_radius c2.planet_teeth c2.ring_teeth c2.module| > 1 / 1000000000) :
    (solve_and_complete_config s1 s2).warned = true ∧
    (solve_and_complete_config s1 s2).wrote = true ∧
    (solve_and_complete_config s1 s2).success = true := by
  rw [solve_and_complete_config] at hc ⊢
  split_ifs at hc ⊢ with h0 h1
  all_goals first
    | exact Option.noConfusion hc
    | (rw [finishConfig_completed s1 s2 c1 c2 hc]
       exact ⟨by simpa using hmis, rfl, rfl⟩)
    | · dsimp only at hc ⊢
        rcases hsv : solveFor s1 s2
            (chooseMissing (detect_missing_params s1) (detect_missing_params s2)) with _ | v <;>
          rw [hsv] at hc
        · exact Option.noConfusion hc
        · dsimp only at hc ⊢
          rw [finishConfig_completed _ _ c1 c2 hc]
          exact ⟨by simpa using hmis, rfl, rfl⟩

/-- Witness for C5: a complete configuration (no missing parameters) whose
carrier radii are 8.25 mm and 8 mm. -/
theorem solve_and_complete_config_mismatch_nonfatal_witness :
    (solve_and_complete_config ⟨some (1/2), some 54, some 21⟩ ⟨some (1/2), some 52, some 20⟩).warned = true ∧
    (solve_and_complete_config ⟨some (1/2), some 54, some 21⟩ ⟨some (1/2), some 52, some 20⟩).wrote = true ∧
    (solve_and_complete_config ⟨some (1/2), some 54, some 21⟩ ⟨some (1/2), some 52, some 20⟩).success = true :=
  solve_and_complete_config_mismatch_nonfatal
    ⟨some (1/2), some 54, some 21⟩ ⟨some (1/2), some 52, some 20⟩
    ⟨1/2, 54, 21⟩ ⟨1/2, 52, 20⟩
    (by with_unfolding_all decide) (by with_unfolding_all decide)

/-- C6. When more than one of the six cross-stage parameters is missing,
`solve_and_complete_config` prints the diagnostic, writes no output file and
returns `False` before any write, and `main` exits nonzero (returns 1). -/
theorem solve_and_complete_config_too_many_missing (s1 s2 : StackIn)
    (h : 2 ≤ (detect_missing_params s1).length + (detect_missing_params s2).length) :
    solve_and_complete_config s1 s2 = ⟨true, false, false, false, none⟩ ∧
    main_exit_code true s1 s2 = 1 := by
  have hr : solve_and_complete_config s1 s2 = ⟨true, false, false, false, none⟩ := by
    rw [solve_and_complete_config]
    rw [if_neg (by omega), if_pos (by omega)]
  refine ⟨hr, ?_⟩
  rw [main_exit_code]
  simp [hr]

/-- Witness for C6: stack 1 missing both `module` and `ring_teeth`. -/
theorem solve_and_complete_config_too_many_missing_witness :
    solve_and_complete_config ⟨none, none, some 21⟩ ⟨some (1/2), some 53, some 20⟩ =
      ⟨true, false, false, false, none⟩ ∧
    main_exit_code true ⟨none, none, some 21⟩ ⟨some (1/2), some 53, some 20⟩ = 1 :=
  solve_and_complete_config_too_many_missing
    ⟨none, none, some 21⟩ ⟨some (1/2), some 53, some 20⟩ (by decide)

/-! ## `analysis-tools/gear_ratio_calculator.py`: the eccentric carrier-angle
search (C7) -/

/-- Model of `np.mod(x, y)` for a positive modulus: `x - y*floor(x/y)`, with result in
`[0, y)`. -/
def qmod (x y : ℚ) : ℚ := x - y * (⌊x / y⌋ : ℤ)

/-- The candidate angle of loop iteration `n` in the eccentric branch of
`get_carrier_angles`:
`anglep2p = (360/(r1_teeth + sun_teeth))*n` recentred by
`anglep2p = np.mod(anglep2p + 180, 360) - 180`. -/
def anglep2p (T n : ℕ) : ℚ := qmod ((360 / (T : ℚ)) * (n : ℚ) + 180) 360 - 180

/-- The collection loop of the eccentric branch
(`for n in range(1,10000000000)`): an iteration whose angle lands on an exact
integer degree value (`np.floor(anglep2p) == anglep2p`) appends it to `set`,
and the loop breaks right after appending a negative one; `fuel` is the
number of loop iterations remaining. -/
def collectAngles (T : ℕ) : ℕ → ℕ → List ℚ → List ℚ
  | 0, _, acc => acc
  | fuel + 1, n, acc =>
    let a := anglep2p T n
    if (⌊a⌋ : ℚ) = a then
      if a < 0 then acc ++ [a]
      else collectAngles T fuel (n + 1) (acc ++ [a])
    else collectAngles T fuel (n + 1) acc

/-- The candidate angle set `set` built by the eccentric branch of
`get_carrier_angles` for `T = r1_teeth + sun_teeth`
(`range(1, 10000000000)` runs `n = 1, …, 9999999999`). -/
def eccentric_angle_set (T : ℕ) : List ℚ :=
  collectAngles T 9999999999 1 []

/-- Truncation of a list of angles at (and including) its first negative
member — the description of the collection given by the spec. -/
def takeUntilNeg : List ℚ → List ℚ
  | [] => []
  | a :: rest => if a < 0 then [a] else a :: takeUntilNeg rest

lemma collectAngles_eq_takeUntilNeg (T : ℕ) :
    ∀ (fuel n : ℕ) (acc : List ℚ),
      collectAngles T fuel n acc =
        acc ++ takeUntilNeg (((List.range' n fuel).map (anglep2p T)).filter
          fun a => decide ((⌊a⌋ : ℚ) = a)) := by
  intro fuel
  induction fuel with
  | zero => intro n acc; simp [collectAngles, takeUntilNeg]
  | succ fuel ih =>
    intro n acc
    rw [List.range'_succ, List.map_cons, List.filter_cons, collectAngles]
    by_cases hint : ((⌊anglep2p T n⌋ : ℤ) : ℚ) = anglep2p T n
    · by_cases hneg : anglep2p T n < 0
      · simp [hint, hneg, takeUntilNeg]
      · simp [hint, hneg, takeUntilNeg, ih, List.append_assoc]
    · simp [hint, ih]

lemma takeUntilNeg_dropLast_nonneg :
    ∀ l : List ℚ, ∀ x ∈ (takeUntilNeg l).dropLast, 0 ≤ x := by
  intro l
  induction l with
  | nil => intro x hx; simp [takeUntilNeg] at hx
  | cons a rest ih =>
    intro x hx
    rw [takeUntilNeg] at hx
    by_cases ha : a < 0
    · rw [if_pos ha] at hx
      simp at hx
    · rw [if_neg ha] at hx
      rcases tun : takeUntilNeg rest with _ | ⟨b, tl⟩
      · rw [tun] at hx
        simp at hx
      · rw [tun, List.dropLast_cons₂] at hx
        rcases List.mem_cons.mp hx with rfl | hx
        · exact not_lt.mp ha
        · exact ih x (by rw [tun]; exact hx)

/-- C7 (counterexample to the claim as stated).  For
`ring_teeth + sun_teeth = 64` (e.g. ring 38, sun 26, for which even 3-planet
spacing is impossible), the eccentric branch collects
`[45, 90, 135, −180]`: the loop appends the breaking angle before it stops,
so the collected set contains the negative member `−180`, contradicting
"every member of the collected set is ≥ 0" and "collected before the angle
value first goes negative". -/
theorem eccentric_angle_set_negative_member_counterexample :
    eccentric_angle_set 64 = [45, 90, 135, -180] ∧
    (-180 : ℚ) ∈ eccentric_angle_set 64 ∧ (-180 : ℚ) < 0 :=
  ⟨by with_unfolding_all decide, by with_unfolding_all decide, by norm_num⟩

/-- C7 (amended).  The candidate set collected by the eccentric branch
consists exactly of the integer-degree values of
`θ = mod(360·n/(ring+sun) + 180, 360) − 180` for positive `n` in increasing
order, truncated at — and including — the first negative such value; hence
every member except possibly the last is ≥ 0 (the last is negative exactly
when the loop stopped by the break). -/
theorem eccentric_angle_set_characterization (T : ℕ) :
    eccentric_angle_set T =
      takeUntilNeg (((List.range' 1 9999999999).map (anglep2p T)).filter
        fun a => decide ((⌊a⌋ : ℚ) = a)) ∧
    ∀ x ∈ (eccentric_angle_set T).dropLast, 0 ≤ x := by
  have h := collectAngles_eq_takeUntilNeg T 9999999999 1 []
  rw [List.nil_append] at h
  refine ⟨h, ?_⟩
  intro x hx
  rw [eccentric_angle_set, h] at hx
  exact takeUntilNeg_dropLast_nonneg _ x hx

/-- Witness for the amended C7 at `T = 64`: the first collected angle, 45°,
is nonnegative. -/
theorem eccentric_angle_set_characterization_witness :
    eccentric_angle_set 64 =
      takeUntilNeg (((List.range' 1 9999999999).map (anglep2p 64)).filter
        fun a => decide ((⌊a⌋ : ℚ) = a)) ∧
    (0 : ℚ) ≤ 45 :=
  ⟨(eccentric_angle_set_characterization 64).1,
   (eccentric_angle_set_characterization 64).2 45 (by with_unfolding_all decide)⟩

/-! ## `GearGeneratorFreecad.py`: planet placement transforms (C4, C10)

The macro's `numpy` 4×4 homogeneous matrices are modelled as
`Matrix (Fin 4) (Fin 4) ℝ`; `.dot` is matrix multiplication.  The in-place
index assignments `m[0][3] = r` / `m[2][3] = h` are modelled by a functional
entry update. -/

/-- Function `Hz(angle)` from `GearGeneratorFreecad.py`: rotation by `angle` (radians)
about the z axis, as a homogeneous 4×4 matrix. -/
noncomputable def Hz (angle : ℝ) : Matrix (Fin 4) (Fin 4) ℝ :=
  !![Real.cos angle, -Real.sin angle, 0, 0;
     Real.sin angle,  Real.cos angle, 0, 0;
     0, 0, 1, 0;
     0, 0, 0, 1]

/-- In-place entry assignment `M[i][j] = v`. -/
def setEntry (M : Matrix (Fin 4) (Fin 4) ℝ) (i j : Fin 4) (v : ℝ) :
    Matrix (Fin 4) (Fin 4) ℝ :=
  fun a b => if a = i ∧ b = j then v else M a b

/-- Assignment `m_c1_1 = Hz(0); m_c1_1[0][3] = s1_carrier_radius` (line 118–119): the
stage-1 base planet placement, a translation by the carrier radius along the
local x axis. -/
noncomputable def m_c1_1 (s1_carrier_radius : ℝ) : Matrix (Fin 4) (Fin 4) ℝ :=
  setEntry (Hz 0) 0 3 s1_carrier_radius

/-- Matrix `m_c2_1` (lines 121–123): `ca = 120`;
`Hz(ca*np.pi/180).dot(m_c1_1).dot(Hz(-ca*np.pi/180*r1_teeth/p1_teeth))`. -/
noncomputable def m_c2_1 (r1_teeth p1_teeth : ℕ) (rad : ℝ) : Matrix (Fin 4) (Fin 4) ℝ :=
  Hz (120 * Real.pi / 180) * m_c1_1 rad *
    Hz (-120 * Real.pi / 180 * (r1_teeth : ℝ) / (p1_teeth : ℝ))

/-- Matrix `m_c3_1` (lines 124–126): the same with `ca = 120*2`. -/
noncomputable def m_c3_1 (r1_teeth p1_teeth : ℕ) (rad : ℝ) : Matrix (Fin 4) (Fin 4) ℝ :=
  Hz (240 * Real.pi / 180) * m_c1_1 rad *
    Hz (-240 * Real.pi / 180 * (r1_teeth : ℝ) / (p1_teeth : ℝ))

/-- Assignment `p2_base_loc = Hz(0); p2_base_loc[0][3] = s2_carrier_radius;
p2_base_loc[2][3] = p1_1.height; m_c1_2 = p2_base_loc` (lines 258–262): the
stage-2 base planet placement (carrier-radius translation plus the stage
separation z offset). -/
noncomputable def m_c1_2 (s2_carrier_radius height : ℝ) : Matrix (Fin 4) (Fin 4) ℝ :=
  setEntry (setEntry (Hz 0) 0 3 s2_carrier_radius) 2 3 height

/-- Matrix `m_c2_2` (lines 267–268):
`Hz(120*np.pi/180).dot(m_c1_2).dot(Hz(-120*np.pi/180*r2_teeth/p2_teeth))`. -/
noncomputable def m_c2_2 (r2_teeth p2_teeth : ℕ) (rad height : ℝ) : Matrix (Fin 4) (Fin 4) ℝ :=
  Hz (120 * Real.pi / 180) * m_c1_2 rad height *
    Hz (-120 * Real.pi / 180 * (r2_teeth : ℝ) / (p2_teeth : ℝ))

/-- Matrix `m_c3_2` (lines 273–274): built iteratively from the second stage-2
planet, `Hz(120*np.pi/180).dot(m_c2_2).dot(Hz(-120*np.pi/180*r2/p2))`. -/
noncomputable def m_c3_2 (r2_teeth p2_teeth : ℕ) (rad height : ℝ) : Matrix (Fin 4) (Fin 4) ℝ :=
  Hz (120 * Real.pi / 180) * m_c2_2 r2_teeth p2_teeth rad height *
    Hz (-120 * Real.pi / 180 * (r2_teeth : ℝ) / (p2_teeth : ℝ))

lemma Hz_mul (x y : ℝ) : Hz x * Hz y = Hz (x + y) := by
  ext i j
  fin_cases i <;> fin_cases j <;>
    simp [Hz, Matrix.mul_apply, Fin.sum_univ_four, Real.cos_add, Real.sin_add] <;>
    ring

lemma Hz_sandwich (M : Matrix (Fin 4) (Fin 4) ℝ) (a b : ℝ) :
    Hz a * (Hz a * M * Hz b) * Hz b = Hz (a + a) * M * Hz (b + b) := by
  calc Hz a * (Hz a * M * Hz b) * Hz b
      = Hz a * Hz a * M * (Hz b * Hz b) := by simp only [mul_assoc]
    _ = Hz (a + a) * M * Hz (b + b) := by rw [Hz_mul, Hz_mul]

/-- C4. Every non-reference planet placement (stage 1 and stage 2, carrier
angles 120° and 240°) equals the carrier rotation `Hz(θ)` applied to that
stage's base transform, post-multiplied by the self-rotation
`Hz(−θ·(ring_teeth/planet_teeth))` with that stage's tooth counts; for the
stage-2 third planet this closed form agrees with the iterative
construction in the source. -/
theorem planet_placements_rotation_corrected (r1 p1 r2 p2 : ℕ) (rad1 rad2 height : ℝ) :
    m_c2_1 r1 p1 rad1 =
      Hz (120 * Real.pi / 180) * m_c1_1 rad1 *
        Hz (-(120 * Real.pi / 180) * ((r1 : ℝ) / (p1 : ℝ))) ∧
    m_c3_1 r1 p1 rad1 =
      Hz (240 * Real.pi / 180) * m_c1_1 rad1 *
        Hz (-(240 * Real.pi / 180) * ((r1 : ℝ) / (p1 : ℝ))) ∧
    m_c2_2 r2 p2 rad2 height =
      Hz (120 * Real.pi / 180) * m_c1_2 rad2 height *
        Hz (-(120 * Real.pi / 180) * ((r2 : ℝ) / (p2 : ℝ))) ∧
    m_c3_2 r2 p2 rad2 height =
      Hz (240 * Real.pi / 180) * m_c1_2 rad2 height *
        Hz (-(240 * Real.pi / 180) * ((r2 : ℝ) / (p2 : ℝ))) := by
  have e120 : ∀ r p : ℕ, -120 * Real.pi / 180 * (r : ℝ) / (p : ℝ) =
      -(120 * Real.pi / 180) * ((r : ℝ) / (p : ℝ)) := fun r p => by ring
  have e240 : ∀ r p : ℕ, -240 * Real.pi / 180 * (r : ℝ) / (p : ℝ) =
      -(240 * Real.pi / 180) * ((r : ℝ) / (p : ℝ)) := fun r p => by ring
  refine ⟨by rw [m_c2_1, e120], by rw [m_c3_1, e240], by rw [m_c2_2, e120], ?_⟩
  rw [m_c3_2, m_c2_2, Hz_sandwich]
  rw [show (120 * Real.pi / 180 + 120 * Real.pi / 180 : ℝ) = 240 * Real.pi / 180 from by ring,
    show (-120 * Real.pi / 180 * (r2 : ℝ) / (p2 : ℝ) + -120 * Real.pi / 180 * (r2 : ℝ) / (p2 : ℝ) : ℝ) =
      -(240 * Real.pi / 180) * ((r2 : ℝ) / (p2 : ℝ)) from by ring]

/-- C10. For all tooth counts and every stage-2 base transform of the
translation-with-z-offset form, the iterative construction of the third
stage-2 planet placement (rotate the second placement by another 120° and
correct its self-rotation again) produces the same rigid transform as the
direct closed form used for stage 1's third planet (a single 240° carrier
rotation with a single self-rotation correction). -/
theorem stage2_iterative_equals_direct_placement (r2 p2 : ℕ) (rad height : ℝ) :
    Hz (120 * Real.pi / 180) *
        (Hz (120 * Real.pi / 180) * m_c1_2 rad height *
          Hz (-120 * Real.pi / 180 * (r2 : ℝ) / (p2 : ℝ))) *
        Hz (-120 * Real.pi / 180 * (r2 : ℝ) / (p2 : ℝ)) =
      Hz (240 * Real.pi / 180) * m_c1_2 rad height *
        Hz (-240 * Real.pi / 180 * (r2 : ℝ) / (p2 : ℝ)) := by
  rw [Hz_sandwich]
  rw [show (120 * Real.pi / 180 + 120 * Real.pi / 180 : ℝ) = 240 * Real.pi / 180 from by ring,
    show (-120 * Real.pi / 180 * (r2 : ℝ) / (p2 : ℝ) + -120 * Real.pi / 180 * (r2 : ℝ) / (p2 : ℝ) : ℝ) =
      -240 * Real.pi / 180 * (r2 : ℝ) / (p2 : ℝ) from by ring]

end Srcp
